import Mathlib

/-!
# PrepStack AI assistant: retrieval, repository analysis and answer composition

A shallow embedding of the pure logic of
`backend/server/services/ragService.js`, `githubService.js` and
`groqService.js`.

JavaScript strings are modelled by `String`; every primitive below works on
the underlying character list, one list element standing for one code unit.
Remote collaborators (database, embedding provider, source-control host,
chat-completion API) are explicit arguments whose calls may fail.
-/

namespace PrepStack

/-! ## JavaScript string primitives -/

/-- `String.prototype.toLowerCase` on ASCII text, where it folds the letters
`A`–`Z` one by one. Outside ASCII the JavaScript function folds further cased
letters and lower-cases a capital sigma according to its neighbours; this
definition leaves every non-ASCII character unchanged, so a statement whose
proof unfolds it speaks about ASCII text only. -/
def toLowerCase (s : String) : String := ⟨s.data.map Char.toLower⟩

/-- Substring search on character lists: does `t` occur in `s` at some offset? -/
def includesList : List Char → List Char → Bool
  | [], t => t.isEmpty
  | c :: cs, t => t.isPrefixOf (c :: cs) || includesList cs t

/-- `String.prototype.includes`: `includes s t` is `s.includes(t)`. -/
def includes (s t : String) : Bool := includesList s.data t.data

/-- `String.prototype.startsWith`. -/
def startsWith (s t : String) : Bool := t.data.isPrefixOf s.data

/-- `String.prototype.toUpperCase` on ASCII text, where it folds the letters
`a`–`z` one by one; here it is applied to the three source type tags only. -/
def toUpperCase (s : String) : String := ⟨s.data.map Char.toUpper⟩

/-- `String.prototype.substring(0, n)`. -/
def substring0 (s : String) (n : Nat) : String := ⟨s.data.take n⟩

/-- Truthiness of a string value: only the empty string is falsy. -/
def truthy (s : String) : Bool := !s.data.isEmpty

/-- Truthiness of a nullable string: `null` and `""` are falsy. -/
def truthyOpt : Option String → Bool
  | none => false
  | some s => truthy s

/-- A nullable string interpolated into a template literal. -/
def interpolate : Option String → String
  | none => "null"
  | some s => s

/-- The characters matched by the regular-expression class `\s`. -/
def isWhiteSpace (c : Char) : Bool :=
  let n := c.toNat
  n == 9 || n == 10 || n == 11 || n == 12 || n == 13 || n == 32 || n == 160 ||
  n == 0x1680 || (0x2000 ≤ n && n ≤ 0x200a) || n == 0x2028 || n == 0x2029 ||
  n == 0x202f || n == 0x205f || n == 0x3000 || n == 0xfeff

/-- Scanner behind `split(/\s+/)`. The state is `none` while inside a run of
white space and `some w` while inside a piece, `w` being the piece read so
far in reverse. -/
def splitGo : List Char → Option (List Char) → List (List Char)
  | [], none => [[]]
  | [], some w => [w.reverse]
  | c :: cs, none =>
    if isWhiteSpace c then splitGo cs none else splitGo cs (some [c])
  | c :: cs, some w =>
    if isWhiteSpace c then w.reverse :: splitGo cs none
    else splitGo cs (some (c :: w))

/-- `s.split(/\s+/)`: the pieces of `s` between maximal runs of white space.
A leading or trailing run yields an empty first or last piece, and the empty
string yields the single piece `""`. -/
def splitWhitespace (s : String) : List String :=
  (splitGo s.data (some [])).map String.mk

/-- Scanner behind `split(sep)` for a one-character separator; `w` is the
piece read so far in reverse. -/
def splitOnGo (sep : Char) : List Char → List Char → List (List Char)
  | [], w => [w.reverse]
  | c :: cs, w =>
    if c = sep then w.reverse :: splitOnGo sep cs [] else splitOnGo sep cs (c :: w)

/-- `s.split(sep)` for a one-character separator. -/
def splitOn (sep : Char) (s : String) : List String :=
  (splitOnGo sep s.data []).map String.mk

/-- `String.prototype.trim`. -/
def trim (s : String) : String :=
  ⟨((s.data.dropWhile isWhiteSpace).reverse.dropWhile isWhiteSpace).reverse⟩

/-- `Array.prototype.join`. -/
def join (sep : String) : List String → String
  | [] => ""
  | [s] => s
  | s :: t :: rest => s ++ sep ++ join sep (t :: rest)

/-! ## Data model -/

/-- A stored note; `embedding` is the nullable serialized vector. -/
structure Note where
  id : Nat
  title : String
  content : String
  embedding : Option String
deriving DecidableEq, Repr

/-- A stored placement question. -/
structure PlacementQuestion where
  id : Nat
  company : String
  topic : String
  question : String
  embedding : Option String
deriving DecidableEq, Repr

/-- One analysed key file of a repository. -/
structure KeyFile where
  name : String
  content : String
  purpose : String
deriving DecidableEq, Repr

/-- The analysis object stored on a repository record. -/
structure Analysis where
  summary : String
  technologies : List String
  keyFiles : List KeyFile
  architecture : String
deriving DecidableEq, Repr

/-- A stored repository; `description`, `language`, `stars` and `analysis`
are nullable columns. -/
structure GithubRepo where
  id : Nat
  repoName : String
  description : Option String
  language : Option String
  stars : Option Nat
  analysis : Option Analysis
deriving DecidableEq, Repr

/-- One entry of the `sources` array built by `searchAndAnswer`. -/
structure Source where
  type : String
  title : String
  content : String
  relevance : ℚ
deriving DecidableEq, Repr

/-- The value `searchAndAnswer` resolves to. -/
structure SearchResult where
  answer : String
  sources : List Source
deriving DecidableEq, Repr

/-! ## Answer Composer (`groqService.js`) -/

/-- One message of a chat-completion request. -/
structure ChatMessage where
  role : String
  content : String
deriving DecidableEq, Repr

/-- The argument of `client.chat.completions.create`. -/
structure ChatRequest where
  model : String
  messages : List ChatMessage
  max_tokens : Nat
  temperature : ℚ
deriving DecidableEq, Repr

/-- One element of `response.choices`; `message` and its `content` may be
absent. -/
structure Choice where
  message : Option (Option String)
deriving DecidableEq, Repr

/-- A chat-completion response. -/
structure ChatCompletion where
  choices : List Choice
deriving DecidableEq, Repr

/-- The chat-completion client: a call either throws or returns a response. -/
abbrev ChatClient := ChatRequest → Except String ChatCompletion

/-- `response.choices[0]?.message?.content || fallback`. -/
def firstContentOr (response : ChatCompletion) (fallback : String) : String :=
  match response.choices.head? with
  | some ⟨some (some content)⟩ => if truthy content then content else fallback
  | _ => fallback

/-- The `systemPrompt` template of `generateAnswer`. -/
def answerSystemPrompt : String :=
  "You are an AI study assistant specializing in computer science topics, placement preparation, and code analysis. \n      \n      You have access to the user's personal study materials, notes, GitHub repositories, and placement questions. \n      Use the provided context to give accurate, detailed answers.\n      \n      When referencing sources, mention which document or repository the information comes from.\n      \n      Keep answers focused, practical, and educational."

/-- The `userPrompt` template of `generateAnswer`. -/
def answerUserPrompt (query context : String) : String :=
  "Question: " ++ query ++ "\n\nContext from user's materials:\n" ++ context ++
    "\n\nPlease provide a comprehensive answer based on the context provided."

/-- The request `generateAnswer` sends to the provider. -/
def answerRequest (query context : String) : ChatRequest :=
  { model := "llama-3.1-8b-instant"
    messages := [⟨"system", answerSystemPrompt⟩, ⟨"user", answerUserPrompt query context⟩]
    max_tokens := 1000
    temperature := 7 / 10 }

/-- `GroqService.generateAnswer(query, context)`: the `try` block performs the
provider call, the `catch` block turns any failure into the apology. -/
def generateAnswer (client : ChatClient) (query context : String) : String :=
  match client (answerRequest query context) with
  | .ok response =>
    firstContentOr response "I couldn't generate a response. Please try again."
  | .error _ => "I'm experiencing technical difficulties. Please try again later."

/-- The content of the `systemMessage` of `generateChatResponse`. -/
def chatSystemPrompt (context : String) : String :=
  "You are an AI study assistant for a computer science student. You have access to their notes, GitHub projects, and placement questions.\n        \n        " ++
    (if truthy context then "Current context:\n" ++ context else "") ++
    "\n        \n        Be helpful, educational, and reference the user's materials when relevant."

/-- The request `generateChatResponse` sends to the provider. -/
def chatRequest (messages : List ChatMessage) (context : String) : ChatRequest :=
  { model := "llama-3.1-8b-instant"
    messages := ⟨"system", chatSystemPrompt context⟩ :: messages
    max_tokens := 800
    temperature := 7 / 10 }

/-- `GroqService.generateChatResponse(messages, context)`. -/
def generateChatResponse (client : ChatClient) (messages : List ChatMessage)
    (context : String) : String :=
  match client (chatRequest messages context) with
  | .ok response =>
    firstContentOr response "I couldn't generate a response. Please try again."
  | .error _ => "I'm experiencing technical difficulties. Please try again later."

/-- The request `analyzeCode` sends to the provider. -/
def analyzeRequest (code language : String) : ChatRequest :=
  { model := "llama-3.1-8b-instant"
    messages :=
      [⟨"system", "You are a code analysis expert. Analyze the provided code and explain its functionality, architecture, and key components."⟩,
       ⟨"user", "Please analyze this " ++ language ++
          " code and explain its purpose and structure:\n\n" ++ code⟩]
    max_tokens := 600
    temperature := 1 / 2 }

/-- `GroqService.analyzeCode(code, language)`. -/
def analyzeCode (client : ChatClient) (code language : String) : String :=
  match client (analyzeRequest code language) with
  | .ok response => firstContentOr response "Code analysis unavailable."
  | .error _ => "Failed to analyze code."

/-! ## Relevance Engine (`ragService.js`) -/

/-- `RAGService.calculateRelevance(content, query)`. The `forEach` loop over
the query words is a left fold over the match counter. -/
def calculateRelevance (content query : String) : ℚ :=
  let queryWords := splitWhitespace (toLowerCase query)
  let contentLower := toLowerCase content
  let matchCount : Nat := queryWords.foldl
    (fun m word => if includes contentLower word then m + 1 else m) 0
  (matchCount : ℚ) / (queryWords.length : ℚ)

/-- The functions of `fileProcessor.js` used by the Relevance Engine; that
file is a collaborator outside these sources, so both are taken as given.
A query embedding is a nullable serialized vector. -/
structure FileProcessor where
  createEmbedding : String → Except String (Option String)
  calculateSimilarity : String → String → ℚ

/-- The three per-user reads of `storage.js` performed by a search, each of
which may reject. -/
structure Storage where
  getNotesByUser : Nat → Except String (List Note)
  getPlacementQuestionsByUser : Nat → Except String (List PlacementQuestion)
  getGithubReposByUser : Nat → Except String (List GithubRepo)

/-- `RAGService.calculateTextSimilarity(embedding1, embedding2)`. -/
def calculateTextSimilarity (fp : FileProcessor) (embedding1 : String)
    (embedding2 : Option String) : ℚ :=
  match embedding2 with
  | none => 0
  | some e2 =>
    if !truthy embedding1 || !truthy e2 then 0
    else fp.calculateSimilarity embedding1 e2

/-- The filter predicate of `findRelevantNotes`. -/
def noteMatches (fp : FileProcessor) (queryEmbedding : Option String)
    (query : String) (note : Note) : Bool :=
  let queryLower := toLowerCase query
  let contentLower := toLowerCase note.content
  let titleLower := toLowerCase note.title
  includes contentLower queryLower || includes titleLower queryLower ||
    decide (calculateTextSimilarity fp (note.embedding.getD "") queryEmbedding > 3 / 10)

/-- `RAGService.findRelevantNotes(notes, queryEmbedding, query)`. -/
def findRelevantNotes (fp : FileProcessor) (notes : List Note)
    (queryEmbedding : Option String) (query : String) : List Note :=
  (notes.filter (noteMatches fp queryEmbedding query)).take 3

/-- The filter predicate of `findRelevantQuestions`. -/
def questionMatches (fp : FileProcessor) (queryEmbedding : Option String)
    (query : String) (question : PlacementQuestion) : Bool :=
  let queryLower := toLowerCase query
  let questionLower := toLowerCase question.question
  let topicLower := toLowerCase question.topic
  includes questionLower queryLower || includes topicLower queryLower ||
    decide (calculateTextSimilarity fp (question.embedding.getD "") queryEmbedding > 3 / 10)

/-- `RAGService.findRelevantQuestions(questions, queryEmbedding, query)`. -/
def findRelevantQuestions (fp : FileProcessor) (questions : List PlacementQuestion)
    (queryEmbedding : Option String) (query : String) : List PlacementQuestion :=
  (questions.filter (questionMatches fp queryEmbedding query)).take 2

/-- The `isProjectQuery` flag of `findRelevantRepos`. -/
def isProjectQuery (queryLower : String) : Bool :=
  includes queryLower "file" ||
  includes queryLower "structure" ||
  includes queryLower "project" ||
  includes queryLower "repo" ||
  includes queryLower "code" ||
  includes queryLower "folder" ||
  includes queryLower "directory" ||
  includes queryLower "architecture" ||
  includes queryLower "technology" ||
  includes queryLower "stack" ||
  includes queryLower "github"

/-- The `partialMatch` test of `findRelevantRepos`: some query word longer
than two characters occurs in the repository name or description. -/
def partialMatch (queryLower repoNameLower descriptionLower : String) : Bool :=
  (splitWhitespace queryLower).any fun word =>
    decide (word.data.length > 2) &&
      (includes repoNameLower word || includes descriptionLower word)

/-- The filter predicate of `findRelevantRepos`. `stringify` stands for
`JSON.stringify` on a stored analysis. -/
def repoMatches (stringify : Analysis → String) (query : String)
    (repo : GithubRepo) : Bool :=
  let queryLower := toLowerCase query
  let repoNameLower := toLowerCase repo.repoName
  let descriptionLower := toLowerCase (repo.description.getD "")
  let analysisText := match repo.analysis with
    | some a => toLowerCase (stringify a)
    | none => ""
  let exactMatch := includes repoNameLower queryLower ||
    includes descriptionLower queryLower ||
    includes analysisText queryLower
  exactMatch || partialMatch queryLower repoNameLower descriptionLower ||
    (isProjectQuery queryLower && repo.analysis.isSome)

/-- `RAGService.findRelevantRepos(repos, queryEmbedding, query)`. -/
def findRelevantRepos (stringify : Analysis → String) (repos : List GithubRepo)
    (_queryEmbedding : Option String) (query : String) : List GithubRepo :=
  let queryLower := toLowerCase query
  let relevantRepos := repos.filter (repoMatches stringify query)
  if relevantRepos.length == 0 && isProjectQuery queryLower && decide (repos.length > 0) then
    (repos.filter fun repo => repo.analysis.isSome).take 3
  else
    relevantRepos.take 3

/-- The lines `formatRepoContent` appends for a present analysis. -/
def formatAnalysis (analysis : Analysis) : String :=
  (if truthy analysis.summary then "\nSummary: " ++ analysis.summary ++ "\n" else "") ++
  ("Technologies: " ++ join ", " analysis.technologies ++ "\n") ++
  (if truthy analysis.architecture then
    "Architecture: " ++ analysis.architecture ++ "\n" else "") ++
  ("\nKey Files:\n" ++
    (analysis.keyFiles.take 3).foldl (fun content file =>
      content ++ "- " ++ file.name ++ ": " ++
        (if truthy file.purpose then file.purpose else "No description") ++ "\n") "")

/-- `RAGService.formatRepoContent(repo)`. -/
def formatRepoContent (repo : GithubRepo) : String :=
  ("Repository: " ++ repo.repoName ++ "\n") ++
  (if truthyOpt repo.description then
    "Description: " ++ interpolate repo.description ++ "\n" else "") ++
  (if truthyOpt repo.language then
    "Primary Language: " ++ interpolate repo.language ++ "\n" else "") ++
  (match repo.stars with
    | some n => if n ≠ 0 then "Stars: " ++ toString n ++ "\n" else ""
    | none => "") ++
  (match repo.analysis with
    | some analysis => formatAnalysis analysis
    | none => "")

/-- `Array.prototype.sort((a, b) => b.relevance - a.relevance)`: the stable
sort that puts higher relevance first. -/
def sortByRelevance (sources : List Source) : List Source :=
  sources.insertionSort fun a b => b.relevance ≤ a.relevance

/-- The `sources` array of `searchAndAnswer`: the candidates of the three
collections in order, sorted by descending relevance and cut to five. -/
def buildSources (stringify : Analysis → String) (query : String)
    (relevantNotes : List Note) (relevantQuestions : List PlacementQuestion)
    (relevantRepos : List GithubRepo) : List Source :=
  (sortByRelevance
    (relevantNotes.map (fun note =>
        { type := "note"
          title := note.title
          content := substring0 note.content 500 ++
            (if note.content.data.length > 500 then "..." else "")
          relevance := calculateRelevance note.content query }) ++
      relevantQuestions.map (fun question =>
        { type := "question"
          title := question.company ++ " - " ++ question.topic
          content := question.question
          relevance := calculateRelevance question.question query }) ++
      relevantRepos.map (fun repo =>
        { type := "github"
          title := repo.repoName
          content := formatRepoContent repo
          relevance := calculateRelevance
            (repo.repoName ++ " " ++ interpolate repo.description ++ " " ++
              (match repo.analysis with
                | some a => stringify a
                | none => "null")) query }))).take 5

/-- The context string handed to the Answer Composer. -/
def buildContext (sources : List Source) : String :=
  join "\n\n" (sources.map fun source =>
    "[" ++ toUpperCase source.type ++ "] " ++ source.title ++ ":\n" ++ source.content)

/-- `RAGService.searchAndAnswer(userId, query)`: any rejection inside the
`try` block is replaced by the generic retrieval failure. -/
def searchAndAnswer (fp : FileProcessor) (storage : Storage)
    (stringify : Analysis → String) (client : ChatClient)
    (userId : Nat) (query : String) : Except String SearchResult :=
  let attempt : Except String SearchResult := do
    let queryEmbedding ← fp.createEmbedding query
    let notes ← storage.getNotesByUser userId
    let relevantNotes := findRelevantNotes fp notes queryEmbedding query
    let questions ← storage.getPlacementQuestionsByUser userId
    let relevantQuestions := findRelevantQuestions fp questions queryEmbedding query
    let githubRepos ← storage.getGithubReposByUser userId
    let relevantRepos := findRelevantRepos stringify githubRepos queryEmbedding query
    let sources := buildSources stringify query relevantNotes relevantQuestions relevantRepos
    let context := buildContext sources
    let answer := generateAnswer client query context
    pure { answer := answer, sources := sources }
  match attempt with
  | .ok result => .ok result
  | .error _ => .error "Failed to generate answer"

/-! ## Repository Analyzer (`githubService.js`) -/

/-- One entry of a directory listing returned by the source-control host. -/
structure DirEntry where
  name : String
  type : String
deriving DecidableEq, Repr

/-- What `repos.getContent` resolves to: a directory listing, or a file object
whose decoded `content` may be missing. -/
inductive Contents where
  | listing (items : List DirEntry)
  | file (content : Option String)
deriving DecidableEq, Repr

/-- The two operations of the source-control host used by the analyzer. Each
may reject; file and README text is delivered already decoded. The `repo`
argument is absent when the repository name holds no `/`. -/
structure Octokit where
  getContent : String → Option String → String → Except String Contents
  getReadme : String → Option String → Except String String

/-- `GitHubService.inferFilePurpose(fileName, content)`. -/
def inferFilePurpose (fileName _content : String) : String :=
  if fileName = "package.json" then "Project dependencies and configuration"
  else if fileName = "requirements.txt" then "Python dependencies"
  else if includes fileName "app." || includes fileName "server." then
    "Main application entry point"
  else if includes fileName "index." then "Application entry point"
  else "Configuration or main application file"

/-- The keyword table of `extractTechnologies`, in insertion order. -/
def techMap : List (String × List String) :=
  [("react", ["react", "jsx", "create-react-app"]),
   ("node.js", ["node", "express", "npm"]),
   ("python", ["python", "django", "flask", "pip"]),
   ("mongodb", ["mongodb", "mongoose"]),
   ("postgresql", ["postgresql", "postgres", "pg"]),
   ("javascript", ["javascript", "js"]),
   ("typescript", ["typescript", "ts"]),
   ("html", ["html"]),
   ("css", ["css", "styling"]),
   ("tailwind", ["tailwind"]),
   ("bootstrap", ["bootstrap"])]

/-- `Set.prototype.add` on a set kept in insertion order. -/
def setAdd (techs : List String) (tech : String) : List String :=
  if techs.contains tech then techs else techs ++ [tech]

/-- `GitHubService.extractTechnologies(keyFiles, readme)`. -/
def extractTechnologies (keyFiles : List KeyFile) (readme : String) : List String :=
  let content := toLowerCase (join " " (keyFiles.map (·.content)) ++ " " ++ readme)
  techMap.foldl (fun techs entry =>
    if entry.2.any (fun keyword => includes content keyword) then setAdd techs entry.1
    else techs) []

/-- `GitHubService.generateSummary(readme, keyFiles)`. -/
def generateSummary (readme : String) (keyFiles : List KeyFile) : String :=
  let synthesized := "Project with " ++ toString keyFiles.length ++
    " key files including " ++ join ", " (keyFiles.map (·.name))
  if truthy readme then
    let lines := (splitOn (Char.ofNat 10) readme).filter
      (fun line => decide ((trim line).data.length > 0))
    match lines.find? (fun line => !startsWith line "#" && decide (line.data.length > 20)) with
    | some description =>
      if truthy description then substring0 description 200 else synthesized
    | none => synthesized
  else synthesized

/-- `GitHubService.inferArchitecture(keyFiles, technologies)`. -/
def inferArchitecture (keyFiles : List KeyFile) (technologies : List String) : String :=
  let hasBackend := keyFiles.any fun f =>
    includes f.name "server" || includes f.name "app.js" || includes f.name "main.py"
  let hasFrontend := technologies.contains "react" || technologies.contains "html"
  if hasBackend && hasFrontend then "Full-stack application"
  else if hasBackend then "Backend API service"
  else if hasFrontend then "Frontend application"
  else "Application project"

/-- The filter selecting the important files of a root listing. -/
def isImportantFile (item : DirEntry) : Bool :=
  item.type == "file" &&
    (includes item.name "package.json" ||
      includes item.name "requirements.txt" ||
      includes item.name "app.js" ||
      includes item.name "main.py" ||
      includes item.name "index.js" ||
      includes item.name "server.js")

/-- The `for` loop of `analyzeRepository` over the important files: a file
whose fetch rejects, or whose object has no `content`, is skipped. -/
def fetchKeyFiles (octokit : Octokit) (owner : String) (repo : Option String) :
    List DirEntry → List KeyFile
  | [] => []
  | file :: rest =>
    match octokit.getContent owner repo file.name with
    | .ok (.file (some content)) =>
      { name := file.name
        content := substring0 content 1000
        purpose := inferFilePurpose file.name content } ::
        fetchKeyFiles octokit owner repo rest
    | _ => fetchKeyFiles octokit owner repo rest

/-- The key files `analyzeRepository` collects from what the root
`getContent` call resolved to. -/
def collectKeyFiles (octokit : Octokit) (owner : String) (repo : Option String)
    (contents : Contents) : List KeyFile :=
  match contents with
  | .listing items =>
    fetchKeyFiles octokit owner repo ((items.filter isImportantFile).take 3)
  | .file _ => []

/-- The first component of `const [owner, repo] = repoName.split("/")`. -/
def repoOwner (repoName : String) : String :=
  (splitOn (Char.ofNat 47) repoName).headD ""

/-- The second component of `const [owner, repo] = repoName.split("/")`,
absent when the name holds no `/`. -/
def repoPart (repoName : String) : Option String :=
  (splitOn (Char.ofNat 47) repoName).tail.head?

/-- The README text: the inner `try`/`catch` of `analyzeRepository` leaves it
empty when the fetch rejects. -/
def fetchReadme (octokit : Octokit) (owner : String) (repo : Option String) : String :=
  match octokit.getReadme owner repo with
  | .ok text => text
  | .error _ => ""

/-- The `analysis` object `analyzeRepository` builds from the README text and
the key files. -/
def buildAnalysis (readme : String) (keyFiles : List KeyFile) : Analysis :=
  let technologies := extractTechnologies keyFiles readme
  { summary := generateSummary readme keyFiles
    technologies := technologies
    keyFiles := keyFiles
    architecture := inferArchitecture keyFiles technologies }

/-- `GitHubService.analyzeRepository(userId, repoId, repoName)`. `octokit` is
`none` when no token was configured; `updateGithubRepoAnalysis` is the
database write. Any rejection other than a missing README is replaced by the
generic analysis failure. -/
def analyzeRepository (octokit : Option Octokit)
    (updateGithubRepoAnalysis : Nat → Analysis → Except String Unit)
    (_userId repoId : Nat) (repoName : String) : Except String Analysis :=
  let attempt : Except String Analysis :=
    match octokit with
    | none => .error "GitHub token not configured"
    | some octokit => do
      let owner := repoOwner repoName
      let repo := repoPart repoName
      let contents ← octokit.getContent owner repo ""
      let readme := fetchReadme octokit owner repo
      let keyFiles := collectKeyFiles octokit owner repo contents
      let analysis := buildAnalysis readme keyFiles
      updateGithubRepoAnalysis repoId analysis
      pure analysis
  match attempt with
  | .ok analysis => .ok analysis
  | .error _ => .error "Failed to analyze repository"

/-! ## Example data -/

/-- An embedding provider that yields no vector and rates every pair `0`. -/
def demoFileProcessor : FileProcessor :=
  { createEmbedding := fun _ => .ok none
    calculateSimilarity := fun _ _ => 0 }

/-- A provider that rejects every request. -/
def failingClient : ChatClient := fun _ => .error "provider unavailable"

/-- A stand-in serializer for stored analyses. -/
def demoStringify (a : Analysis) : String := a.summary

/-- The note of the end-to-end scenario. -/
def graphsNote : Note :=
  { id := 1, title := "Graphs", content := "Dijkstra shortest path", embedding := none }

/-- A user whose only stored content is the note `Graphs`. -/
def graphsStorage : Storage :=
  { getNotesByUser := fun _ => .ok [graphsNote]
    getPlacementQuestionsByUser := fun _ => .ok []
    getGithubReposByUser := fun _ => .ok [] }

/-- A note matching the query `dijkstra graph` by its title only. -/
def titleOnlyNote : Note :=
  { id := 2, title := "dijkstra graph", content := "graph", embedding := none }

/-- A note whose content is the query `dijkstra graph`. -/
def fullMatchNote : Note :=
  { id := 3, title := "algorithms", content := "dijkstra graph", embedding := none }

/-- A user with two notes, the weaker match stored first. -/
def twoNoteStorage : Storage :=
  { getNotesByUser := fun _ => .ok [titleOnlyNote, fullMatchNote]
    getPlacementQuestionsByUser := fun _ => .ok []
    getGithubReposByUser := fun _ => .ok [] }

/-- What the search over `twoNoteStorage` for `dijkstra graph` resolves to
when the provider is down. -/
def twoNoteResult : SearchResult :=
  { answer := "I'm experiencing technical difficulties. Please try again later."
    sources :=
      [{ type := "note", title := "algorithms", content := "dijkstra graph", relevance := 1 },
       { type := "note", title := "dijkstra graph", content := "graph", relevance := 1 / 2 }] }

/-- Four notes that all contain the word `graph`. -/
def fourNotes : List Note :=
  [{ id := 1, title := "BFS", content := "graph traversal by layers", embedding := none },
   { id := 2, title := "DFS", content := "graph traversal by depth", embedding := none },
   { id := 3, title := "MST", content := "graph spanning trees", embedding := none },
   { id := 4, title := "Flows", content := "graph cuts and flows", embedding := none }]

/-- The last of `fourNotes`. -/
def flowsNote : Note :=
  { id := 4, title := "Flows", content := "graph cuts and flows", embedding := none }

/-- A host whose repository has no README and only a licence and a source
directory at its root. -/
def bareOctokit : Octokit :=
  { getContent := fun _ _ path =>
      if path = "" then .ok (.listing [⟨"LICENSE", "file"⟩, ⟨"src", "dir"⟩])
      else .error "Not Found"
    getReadme := fun _ _ => .error "Not Found" }

/-- A database write that always resolves. -/
def demoUpdate : Nat → Analysis → Except String Unit := fun _ _ => .ok ()

/-- What the search over `graphsStorage` for `dijkstra` resolves to when the
provider is down. -/
def graphsResult : SearchResult :=
  { answer := "I'm experiencing technical difficulties. Please try again later."
    sources :=
      [{ type := "note", title := "Graphs", content := "Dijkstra shortest path",
         relevance := 1 }] }

/-- A repository without analysis, as in the partial-word scenario. -/
def moviesRepo : GithubRepo :=
  { id := 1, repoName := "movies_website", description := none, language := none,
    stars := none, analysis := none }

/-- The six names tested by the important-file filter. -/
def allowedNames : List String :=
  ["package.json", "requirements.txt", "app.js", "main.py", "index.js", "server.js"]

/-- A host whose repository root holds the single file `webapp.js`. -/
def webappOctokit : Octokit :=
  { getContent := fun _ _ path =>
      if path = "" then .ok (.listing [⟨"webapp.js", "file"⟩])
      else if path = "webapp.js" then .ok (.file (some "x = 1"))
      else .error "Not Found"
    getReadme := fun _ _ => .error "Not Found" }

/-- The analysis of the repository served by `webappOctokit`. -/
def webappAnalysis : Analysis :=
  { summary := "Project with 1 key files including webapp.js"
    technologies := []
    keyFiles := [{ name := "webapp.js", content := "x = 1",
                   purpose := "Main application entry point" }]
    architecture := "Backend API service" }

/-- A stored repository that was never analysed. -/
def unanalysedRepo : GithubRepo :=
  { id := 9, repoName := "alice/chess-engine", description := some "UCI chess engine",
    language := some "Rust", stars := some 3, analysis := none }

/-- The line test of `generateSummary`, the blank-line filter and the `find`
predicate taken together. -/
def isDescription (line : String) : Bool :=
  decide ((trim line).data.length > 0) &&
    (!startsWith line "#" && decide (line.data.length > 20))

/-- A README line that can serve as summary: it is not blank, does not start
with `#` and is longer than 20 characters. -/
def IsDescriptionLine (line : String) : Prop :=
  (∃ c ∈ line.data, isWhiteSpace c = false) ∧ ¬ "#".data <+: line.data ∧
    20 < line.data.length

/-- The README of a small project: a heading, a blank line, a description. -/
def demoReadme : String :=
  "# PrepStack\n\nA study assistant for placement preparation.\nSee the docs."

/-- Two key files as stored by the analyzer. -/
def demoKeyFiles : List KeyFile :=
  [{ name := "package.json", content := "{}",
     purpose := "Project dependencies and configuration" },
   { name := "app.js", content := "x = 1", purpose := "Main application entry point" }]

/-! ## Lemmas on the string primitives -/

theorem includesList_iff (s t : List Char) :
    includesList s t = true ↔ t <:+: s := by
  induction s with
  | nil => cases t <;> simp [includesList]
  | cons c cs ih =>
    simp only [includesList, Bool.or_eq_true, ih, List.infix_cons_iff,
      List.isPrefixOf_iff_prefix]

theorem includes_iff (s t : String) :
    includes s t = true ↔ t.data <:+: s.data :=
  includesList_iff s.data t.data

theorem splitGo_ne_nil (s : List Char) (st : Option (List Char)) :
    splitGo s st ≠ [] := by
  induction s generalizing st with
  | nil => cases st <;> simp [splitGo]
  | cons c cs ih =>
    cases st with
    | none =>
      simp only [splitGo]
      split
      · exact ih _
      · exact ih _
    | some w =>
      simp only [splitGo]
      split
      · simp
      · exact ih _

theorem splitWhitespace_length_pos (s : String) :
    0 < (splitWhitespace s).length := by
  unfold splitWhitespace
  rw [List.length_map]
  exact List.length_pos.mpr (splitGo_ne_nil _ _)

/-- The fold of `calculateRelevance` counts the elements passing the test. -/
theorem foldl_count {α : Type} (p : α → Bool) (l : List α) (k : Nat) :
    l.foldl (fun m x => if p x then m + 1 else m) k = k + l.countP p := by
  induction l generalizing k with
  | nil => simp
  | cons a l ih =>
    simp only [List.foldl_cons, List.countP_cons, ih]
    by_cases h : p a = true
    · simp [h]; omega
    · simp [h]

theorem calculateRelevance_eq (content query : String) :
    calculateRelevance content query =
      (((splitWhitespace (toLowerCase query)).countP
          (fun w => includes (toLowerCase content) w) : Nat) : ℚ) /
        ((splitWhitespace (toLowerCase query)).length : ℚ) := by
  unfold calculateRelevance
  simp only [foldl_count, Nat.zero_add]

theorem calculateRelevance_eq_one_iff (content query : String) :
    calculateRelevance content query = 1 ↔
      ∀ w ∈ splitWhitespace (toLowerCase query),
        includes (toLowerCase content) w = true := by
  have hpos := splitWhitespace_length_pos (toLowerCase query)
  have hposq : (0 : ℚ) < ((splitWhitespace (toLowerCase query)).length : ℚ) := by
    exact_mod_cast hpos
  rw [calculateRelevance_eq, div_eq_one_iff_eq (ne_of_gt hposq), Nat.cast_inj,
    List.countP_eq_length]

theorem calculateRelevance_bounds (content query : String) :
    0 ≤ calculateRelevance content query ∧ calculateRelevance content query ≤ 1 := by
  have hpos := splitWhitespace_length_pos (toLowerCase query)
  have hposq : (0 : ℚ) < ((splitWhitespace (toLowerCase query)).length : ℚ) := by
    exact_mod_cast hpos
  have hle : (splitWhitespace (toLowerCase query)).countP
      (fun w => includes (toLowerCase content) w) ≤
      (splitWhitespace (toLowerCase query)).length := List.countP_le_length _
  have hleq : (((splitWhitespace (toLowerCase query)).countP
      (fun w => includes (toLowerCase content) w) : Nat) : ℚ) ≤
      ((splitWhitespace (toLowerCase query)).length : ℚ) := by
    exact_mod_cast hle
  rw [calculateRelevance_eq]
  exact ⟨by positivity, (div_le_one hposq).mpr hleq⟩

/-! ## Lemmas on the Relevance Engine -/

theorem searchAndAnswer_ok (fp : FileProcessor) (storage : Storage)
    (stringify : Analysis → String) (client : ChatClient) (userId : Nat)
    (query : String) (result : SearchResult)
    (h : searchAndAnswer fp storage stringify client userId query = .ok result) :
    ∃ queryEmbedding notes questions githubRepos,
      fp.createEmbedding query = .ok queryEmbedding ∧
      storage.getNotesByUser userId = .ok notes ∧
      storage.getPlacementQuestionsByUser userId = .ok questions ∧
      storage.getGithubReposByUser userId = .ok githubRepos ∧
      result.sources = buildSources stringify query
        (findRelevantNotes fp notes queryEmbedding query)
        (findRelevantQuestions fp questions queryEmbedding query)
        (findRelevantRepos stringify githubRepos queryEmbedding query) ∧
      result.answer = generateAnswer client query (buildContext result.sources) := by
  unfold searchAndAnswer at h
  cases he : fp.createEmbedding query with
  | error e => simp [he, bind, Except.bind] at h
  | ok qe =>
    cases hn : storage.getNotesByUser userId with
    | error e => simp [he, hn, bind, Except.bind] at h
    | ok notes =>
      cases hq : storage.getPlacementQuestionsByUser userId with
      | error e => simp [he, hn, hq, bind, Except.bind] at h
      | ok questions =>
        cases hr : storage.getGithubReposByUser userId with
        | error e => simp [he, hn, hq, hr, bind, Except.bind] at h
        | ok repos =>
          simp [he, hn, hq, hr, bind, Except.bind, pure, Except.pure] at h
          exact ⟨qe, notes, questions, repos, rfl, rfl, rfl, rfl, by rw [← h], by rw [← h]⟩

/-- When the embedding call and the three reads resolve, the search resolves. -/
theorem searchAndAnswer_eq (fp : FileProcessor) (storage : Storage)
    (stringify : Analysis → String) (client : ChatClient) (userId : Nat)
    (query : String) (queryEmbedding : Option String) (notes : List Note)
    (questions : List PlacementQuestion) (githubRepos : List GithubRepo)
    (he : fp.createEmbedding query = .ok queryEmbedding)
    (hn : storage.getNotesByUser userId = .ok notes)
    (hq : storage.getPlacementQuestionsByUser userId = .ok questions)
    (hr : storage.getGithubReposByUser userId = .ok githubRepos) :
    searchAndAnswer fp storage stringify client userId query =
      .ok { answer := generateAnswer client query (buildContext
              (buildSources stringify query
                (findRelevantNotes fp notes queryEmbedding query)
                (findRelevantQuestions fp questions queryEmbedding query)
                (findRelevantRepos stringify githubRepos queryEmbedding query)))
            sources := buildSources stringify query
                (findRelevantNotes fp notes queryEmbedding query)
                (findRelevantQuestions fp questions queryEmbedding query)
                (findRelevantRepos stringify githubRepos queryEmbedding query) } := by
  simp [searchAndAnswer, he, hn, hq, hr, bind, Except.bind, pure, Except.pure]

theorem sortByRelevance_sorted (l : List Source) :
    (sortByRelevance l).Pairwise (fun a b => b.relevance ≤ a.relevance) := by
  unfold sortByRelevance
  haveI : IsTotal Source (fun a b => b.relevance ≤ a.relevance) :=
    ⟨fun a b => le_total b.relevance a.relevance⟩
  haveI : IsTrans Source (fun a b => b.relevance ≤ a.relevance) :=
    ⟨fun a b c hab hbc => le_trans hbc hab⟩
  exact List.sorted_insertionSort _ l

theorem buildSources_length (stringify : Analysis → String) (query : String)
    (ns : List Note) (qs : List PlacementQuestion) (rs : List GithubRepo) :
    (buildSources stringify query ns qs rs).length ≤ 5 := by
  unfold buildSources
  exact List.length_take_le _ _

theorem buildSources_sorted (stringify : Analysis → String) (query : String)
    (ns : List Note) (qs : List PlacementQuestion) (rs : List GithubRepo) :
    (buildSources stringify query ns qs rs).Pairwise
      (fun a b => b.relevance ≤ a.relevance) := by
  unfold buildSources
  exact (sortByRelevance_sorted _).sublist (List.take_sublist _ _)

/-- An element passing a filter survives the cut to `n` when fewer than `n`
passing elements precede it. -/
theorem mem_take_filter {α : Type} (p : α → Bool) (pre post : List α) (a : α)
    (n : Nat) (ha : p a = true) (hpre : (pre.filter p).length < n) :
    a ∈ ((pre ++ a :: post).filter p).take n := by
  rw [List.filter_append, List.filter_cons_of_pos ha, List.take_append_eq_append_take]
  apply List.mem_append_right
  obtain ⟨k, hk⟩ : ∃ k, n - (pre.filter p).length = k + 1 :=
    ⟨n - (pre.filter p).length - 1, by omega⟩
  rw [hk, List.take_succ_cons]
  exact List.mem_cons_self _ _

/-- On ASCII text lower-casing acts letter by letter. -/
theorem toLowerCase_ascii (s : String) :
    (∀ c ∈ s.data, c.toNat < 128) → (toLowerCase s).data = s.data.map Char.toLower :=
  fun _ => rfl

/-- Within ASCII text, a verbatim occurrence is still an occurrence after
lower-casing both sides. -/
theorem toLowerCase_occurs (s t : String) (hascii : ∀ c ∈ s.data, c.toNat < 128)
    (h : t.data <:+: s.data) :
    (toLowerCase t).data <:+: (toLowerCase s).data := by
  have ht : ∀ c ∈ t.data, c.toNat < 128 := fun c hc => hascii c (h.subset hc)
  rw [toLowerCase_ascii s hascii, toLowerCase_ascii t ht]
  obtain ⟨a, b, hab⟩ := h
  exact ⟨a.map Char.toLower, b.map Char.toLower, by rw [← hab, List.map_append,
    List.map_append]⟩

/-! ## Evaluations on the example data -/

theorem relevance_titleOnly :
    calculateRelevance "graph" "dijkstra graph" = 1 / 2 := by
  have h1 : (splitWhitespace (toLowerCase "dijkstra graph")).countP
    (fun w => includes (toLowerCase "graph") w) = 1 := by decide
  have h2 : (splitWhitespace (toLowerCase "dijkstra graph")).length = 2 := by decide
  rw [calculateRelevance_eq, h1, h2]; norm_num

theorem relevance_fullMatch :
    calculateRelevance "dijkstra graph" "dijkstra graph" = 1 := by
  rw [calculateRelevance_eq_one_iff]; decide

theorem twoNote_search :
    searchAndAnswer demoFileProcessor twoNoteStorage demoStringify failingClient 7
      "dijkstra graph" = .ok twoNoteResult := by
  have hn : findRelevantNotes demoFileProcessor [titleOnlyNote, fullMatchNote] none
      "dijkstra graph" = [titleOnlyNote, fullMatchNote] := by decide
  have hq : findRelevantQuestions demoFileProcessor [] none "dijkstra graph" = [] := rfl
  have hr : findRelevantRepos demoStringify [] none "dijkstra graph" = [] := by decide
  have hs : buildSources demoStringify "dijkstra graph" [titleOnlyNote, fullMatchNote] [] [] =
      twoNoteResult.sources := by
    have c1 : substring0 titleOnlyNote.content 500 ++
        (if titleOnlyNote.content.data.length > 500 then "..." else "") = "graph" := by decide
    have c2 : substring0 fullMatchNote.content 500 ++
        (if fullMatchNote.content.data.length > 500 then "..." else "") = "dijkstra graph" := by
      decide
    have r1 : calculateRelevance titleOnlyNote.content "dijkstra graph" = 1 / 2 :=
      relevance_titleOnly
    have r2 : calculateRelevance fullMatchNote.content "dijkstra graph" = 1 :=
      relevance_fullMatch
    simp only [buildSources, List.map_cons, List.map_nil, List.append_nil, c1, c2, r1, r2,
      sortByRelevance, List.insertionSort, List.orderedInsert]
    norm_num [twoNoteResult, titleOnlyNote, fullMatchNote]
  rw [searchAndAnswer_eq demoFileProcessor twoNoteStorage demoStringify failingClient 7
    "dijkstra graph" none [titleOnlyNote, fullMatchNote] [] [] rfl rfl rfl rfl, hn, hq, hr, hs]
  rfl

/-! ## Lemmas on the Repository Analyzer -/

/-- When a client is configured, the root listing resolves and the database
write resolves, the analysis resolves to the object built from the README
text and the collected key files. -/
theorem analyzeRepository_eq (octokit : Octokit)
    (update : Nat → Analysis → Except String Unit) (userId repoId : Nat)
    (repoName : String) (contents : Contents)
    (hroot : octokit.getContent (repoOwner repoName) (repoPart repoName) "" = .ok contents)
    (hupd : update repoId (buildAnalysis
        (fetchReadme octokit (repoOwner repoName) (repoPart repoName))
        (collectKeyFiles octokit (repoOwner repoName) (repoPart repoName) contents)) = .ok ()) :
    analyzeRepository (some octokit) update userId repoId repoName =
      .ok (buildAnalysis (fetchReadme octokit (repoOwner repoName) (repoPart repoName))
        (collectKeyFiles octokit (repoOwner repoName) (repoPart repoName) contents)) := by
  simp [analyzeRepository, hroot, hupd, bind, Except.bind, pure, Except.pure]

theorem analyzeRepository_ok (octokit : Option Octokit)
    (update : Nat → Analysis → Except String Unit) (userId repoId : Nat)
    (repoName : String) (analysis : Analysis)
    (h : analyzeRepository octokit update userId repoId repoName = .ok analysis) :
    ∃ client contents, octokit = some client ∧
      client.getContent (repoOwner repoName) (repoPart repoName) "" = .ok contents ∧
      analysis = buildAnalysis (fetchReadme client (repoOwner repoName) (repoPart repoName))
        (collectKeyFiles client (repoOwner repoName) (repoPart repoName) contents) := by
  unfold analyzeRepository at h
  cases octokit with
  | none => simp at h
  | some client =>
    cases hc : client.getContent (repoOwner repoName) (repoPart repoName) "" with
    | error e => simp [hc, bind, Except.bind] at h
    | ok contents =>
      refine ⟨client, contents, rfl, hc, ?_⟩
      cases hu : update repoId (buildAnalysis
          (fetchReadme client (repoOwner repoName) (repoPart repoName))
          (collectKeyFiles client (repoOwner repoName) (repoPart repoName) contents)) with
      | error e => simp [hc, hu, bind, Except.bind] at h
      | ok u =>
        simp [hc, hu, bind, Except.bind, pure, Except.pure] at h
        exact h.symm

theorem buildAnalysis_bare :
    buildAnalysis "" [] =
      { summary := "Project with 0 key files including "
        technologies := []
        keyFiles := []
        architecture := "Application project" } := by
  decide

/-! ## Lemmas for the single-note search -/

/-- Every piece produced by the white-space scanner occurs in the text made
of the piece under construction followed by the unread input. -/
theorem splitGo_occurs (s : List Char) (st : Option (List Char)) (w : List Char)
    (hw : w ∈ splitGo s st) :
    w <:+: (match st with | none => [] | some cur => cur.reverse) ++ s := by
  induction s generalizing st with
  | nil =>
    cases st with
    | none =>
      simp only [splitGo, List.mem_singleton] at hw
      subst hw
      exact List.nil_infix
    | some cur =>
      simp only [splitGo, List.mem_singleton] at hw
      subst hw
      simp
  | cons c cs ih =>
    cases st with
    | none =>
      simp only [splitGo] at hw
      split at hw
      · have h := ih none hw
        simp only [List.nil_append] at h ⊢
        exact h.trans (List.suffix_cons c cs).isInfix
      · have h := ih (some [c]) hw
        simpa using h
    | some cur =>
      simp only [splitGo] at hw
      split at hw
      · rcases List.mem_cons.mp hw with h | h
        · subst h
          exact (List.prefix_append _ _).isInfix
        · have h2 := ih none h
          simp only [List.nil_append] at h2
          exact h2.trans ((List.suffix_cons c cs).isInfix.trans
            (List.suffix_append _ _).isInfix)
      · have h := ih (some (c :: cur)) hw
        simpa using h

theorem splitWhitespace_occurs (s w : String) (hw : w ∈ splitWhitespace s) :
    w.data <:+: s.data := by
  unfold splitWhitespace at hw
  obtain ⟨l, hl, rfl⟩ := List.mem_map.mp hw
  simpa using splitGo_occurs s.data (some []) l hl

/-- A query that occurs in the content after lower-casing has relevance 1. -/
theorem calculateRelevance_of_includes (content query : String)
    (h : (toLowerCase query).data <:+: (toLowerCase content).data) :
    calculateRelevance content query = 1 := by
  rw [calculateRelevance_eq_one_iff]
  intro w hw
  exact (includes_iff _ _).mpr ((splitWhitespace_occurs _ _ hw).trans h)

theorem findRelevantRepos_nil (stringify : Analysis → String)
    (queryEmbedding : Option String) (query : String) :
    findRelevantRepos stringify [] queryEmbedding query = [] := by
  simp [findRelevantRepos]

theorem buildSources_single_note (stringify : Analysis → String) (query : String)
    (note : Note) :
    buildSources stringify query [note] [] [] =
      [{ type := "note"
         title := note.title
         content := substring0 note.content 500 ++
           (if note.content.data.length > 500 then "..." else "")
         relevance := calculateRelevance note.content query }] := by
  simp [buildSources, sortByRelevance]

theorem graphs_search :
    searchAndAnswer demoFileProcessor graphsStorage demoStringify failingClient 7
      "dijkstra" = .ok graphsResult := by
  have hn : findRelevantNotes demoFileProcessor [graphsNote] none "dijkstra" =
      [graphsNote] := by decide
  have hq : findRelevantQuestions demoFileProcessor [] none "dijkstra" = [] := rfl
  have hc : substring0 graphsNote.content 500 ++
      (if graphsNote.content.data.length > 500 then "..." else "") =
        "Dijkstra shortest path" := by decide
  have hrel : calculateRelevance graphsNote.content "dijkstra" = 1 :=
    calculateRelevance_of_includes _ _ ((includesList_iff _ _).mp (by decide))
  rw [searchAndAnswer_eq demoFileProcessor graphsStorage demoStringify failingClient 7
    "dijkstra" none [graphsNote] [] [] rfl rfl rfl rfl, hn, hq, findRelevantRepos_nil,
    buildSources_single_note, hc, hrel]
  rfl

/-! ## Lemmas on repository matching and key files -/

theorem findRelevantRepos_of_matches (stringify : Analysis → String)
    (pre post : List GithubRepo) (repo : GithubRepo) (queryEmbedding : Option String)
    (query : String) (hm : repoMatches stringify query repo = true)
    (hpre : (pre.filter (repoMatches stringify query)).length < 3) :
    repo ∈ findRelevantRepos stringify (pre ++ repo :: post) queryEmbedding query := by
  have hmem : repo ∈ (pre ++ repo :: post).filter (repoMatches stringify query) :=
    List.mem_filter.mpr ⟨by simp, hm⟩
  have hlen : ((pre ++ repo :: post).filter (repoMatches stringify query)).length ≠ 0 := by
    intro h0
    rw [List.length_eq_zero] at h0
    rw [h0] at hmem
    exact List.not_mem_nil _ hmem
  have hb : (((pre ++ repo :: post).filter (repoMatches stringify query)).length == 0) =
      false := beq_false_of_ne hlen
  unfold findRelevantRepos
  simp only [hb, Bool.false_and, Bool.false_eq_true, if_false]
  exact mem_take_filter _ pre post repo 3 hm hpre

theorem isImportantFile_iff (item : DirEntry) :
    isImportantFile item = true ↔
      item.type = "file" ∧ ∃ allowed ∈ allowedNames, allowed.data <:+: item.name.data := by
  simp [isImportantFile, allowedNames, includes_iff, or_assoc]

/-- The fetch loop keeps, in order, the files whose fetch delivered text, and
stores the first 1000 characters of that text. -/
theorem fetchKeyFiles_spec (octokit : Octokit) (owner : String) (repo : Option String)
    (files : List DirEntry) :
    (∃ selected : List DirEntry, selected.Sublist files ∧
      (fetchKeyFiles octokit owner repo files).map (·.name) = selected.map (·.name)) ∧
    ∀ kf ∈ fetchKeyFiles octokit owner repo files,
      ∃ text, octokit.getContent owner repo kf.name = .ok (.file (some text)) ∧
        kf.content = substring0 text 1000 := by
  induction files with
  | nil => exact ⟨⟨[], List.Sublist.refl _, rfl⟩, by simp [fetchKeyFiles]⟩
  | cons file rest ih =>
    obtain ⟨⟨sel, hsub, hnames⟩, hkf⟩ := ih
    unfold fetchKeyFiles
    split
    · rename_i content hc
      refine ⟨⟨file :: sel, hsub.cons₂ file, by simp [hnames]⟩, ?_⟩
      intro kf hmem
      rcases List.mem_cons.mp hmem with h | h
      · subst h
        exact ⟨content, hc, rfl⟩
      · exact hkf kf h
    · exact ⟨⟨sel, hsub.cons file, hnames⟩, hkf⟩

theorem webapp_analysis :
    analyzeRepository (some webappOctokit) demoUpdate 7 42 "alice/site" =
      .ok webappAnalysis := by
  rw [analyzeRepository_eq webappOctokit demoUpdate 7 42 "alice/site"
    (.listing [⟨"webapp.js", "file"⟩]) rfl rfl]
  have : buildAnalysis (fetchReadme webappOctokit (repoOwner "alice/site")
      (repoPart "alice/site"))
      (collectKeyFiles webappOctokit (repoOwner "alice/site") (repoPart "alice/site")
        (.listing [⟨"webapp.js", "file"⟩])) = webappAnalysis := by decide
  rw [this]

/-! ## Lemmas on the project-query fallback -/

/-- A repository rejected by the filter under a project-related query has no
analysis. -/
theorem analysis_none_of_not_matches (stringify : Analysis → String) (query : String)
    (repo : GithubRepo) (hproject : isProjectQuery (toLowerCase query) = true)
    (hm : repoMatches stringify query repo = false) : repo.analysis = none := by
  unfold repoMatches at hm
  simp only [hproject, Bool.true_and, Bool.or_eq_false_iff] at hm
  cases ha : repo.analysis with
  | none => rfl
  | some a => rw [ha] at hm; simp at hm

/-! ## Lemmas on the summary line -/

theorem trim_nonempty_iff (line : String) :
    (trim line).data.length > 0 ↔ ∃ c ∈ line.data, isWhiteSpace c = false := by
  have h1 : ∀ l : List Char, l.dropWhile isWhiteSpace ≠ [] ↔
      ∃ c ∈ l, isWhiteSpace c = false := by
    intro l
    rw [Ne, List.dropWhile_eq_nil_iff]
    simp
  unfold trim
  simp only [List.length_reverse, gt_iff_lt, List.length_pos]
  rw [h1]
  constructor
  · rintro ⟨c, hc, hw⟩
    have hc2 : c ∈ line.data.dropWhile isWhiteSpace := List.mem_reverse.mp hc
    exact ⟨c, (List.dropWhile_sublist _).subset hc2, hw⟩
  · intro h
    have hne : line.data.dropWhile isWhiteSpace ≠ [] := (h1 line.data).mpr h
    obtain ⟨d, ds, hd⟩ := List.exists_cons_of_ne_nil hne
    have hdw : isWhiteSpace d = false := by
      have := List.head_dropWhile_not isWhiteSpace line.data hne
      simpa [hd] using this
    exact ⟨d, by rw [hd]; simp, hdw⟩

theorem isDescription_iff (line : String) :
    isDescription line = true ↔ IsDescriptionLine line := by
  unfold isDescription IsDescriptionLine
  simp only [Bool.and_eq_true, decide_eq_true_eq, Bool.not_eq_true', startsWith,
    trim_nonempty_iff]
  rw [← Bool.not_eq_true, List.isPrefixOf_iff_prefix]

theorem join_cons_of_ne_nil (sep a : String) (rest : List String) (h : rest ≠ []) :
    join sep (a :: rest) = a ++ sep ++ join sep rest := by
  cases rest with
  | nil => exact absurd rfl h
  | cons b r => rfl

theorem splitOnGo_ne_nil (sep : Char) (s w : List Char) : splitOnGo sep s w ≠ [] := by
  induction s generalizing w with
  | nil => simp [splitOnGo]
  | cons c cs ih =>
    simp only [splitOnGo]
    split
    · simp
    · exact ih _

/-- Joining the pieces of a split with the separator gives back the text. -/
theorem splitOnGo_join (sep : Char) (s w : List Char) :
    (join ⟨[sep]⟩ ((splitOnGo sep s w).map String.mk)).data = w.reverse ++ s := by
  induction s generalizing w with
  | nil => simp [splitOnGo, join]
  | cons c cs ih =>
    simp only [splitOnGo]
    split
    · rename_i hc
      rw [List.map_cons, join_cons_of_ne_nil _ _ _
        (by simpa using splitOnGo_ne_nil sep cs [])]
      simp only [String.data_append, ih, List.reverse_nil, List.nil_append, hc,
        List.append_assoc, List.singleton_append]
    · rw [ih]
      simp

/-- No piece of a split holds the separator. -/
theorem splitOnGo_no_sep (sep : Char) (s w : List Char) (hw : sep ∉ w) :
    ∀ l ∈ splitOnGo sep s w, sep ∉ l := by
  induction s generalizing w with
  | nil =>
    intro l hl
    simp only [splitOnGo, List.mem_singleton] at hl
    subst hl
    simpa using hw
  | cons c cs ih =>
    intro l hl
    simp only [splitOnGo] at hl
    split at hl
    · rcases List.mem_cons.mp hl with h | h
      · subst h
        simpa using hw
      · exact ih [] (by simp) l h
    · rename_i hc
      refine ih (c :: w) ?_ l hl
      simp only [List.mem_cons, not_or]
      exact ⟨fun h => hc h.symm, hw⟩

theorem splitOn_join (sep : Char) (s : String) :
    join ⟨[sep]⟩ (splitOn sep s) = s := by
  apply String.ext
  simpa [splitOn] using splitOnGo_join sep s.data []

theorem splitOn_no_sep (sep : Char) (s : String) :
    ∀ line ∈ splitOn sep s, sep ∉ line.data := by
  intro line hl
  unfold splitOn at hl
  obtain ⟨l, hmem, rfl⟩ := List.mem_map.mp hl
  exact splitOnGo_no_sep sep s.data [] (by simp) l hmem

/-- `generateSummary` as one search over the README lines. -/
theorem generateSummary_eq (readme : String) (keyFiles : List KeyFile) :
    generateSummary readme keyFiles =
      match (splitOn (Char.ofNat 10) readme).find? isDescription with
      | some description => substring0 description 200
      | none => "Project with " ++ toString keyFiles.length ++
          " key files including " ++ join ", " (keyFiles.map (·.name)) := by
  unfold generateSummary
  by_cases ht : truthy readme = true
  · simp only [ht, if_true, List.find?_filter]
    have hp : (fun a : String => decide (decide ((trim a).data.length > 0) = true ∧
        (!startsWith a "#" && decide (a.data.length > 20)) = true)) = isDescription := by
      funext a
      simp [isDescription]
    rw [hp]
    cases hf : (splitOn (Char.ofNat 10) readme).find? isDescription with
    | none => rfl
    | some description =>
      have hd : isDescription description = true := List.find?_some hf
      have hlen : 20 < description.data.length := ((isDescription_iff _).mp hd).2.2
      have htr : truthy description = true := by
        unfold truthy
        cases hdata : description.data with
        | nil => rw [hdata] at hlen; simp at hlen
        | cons c cs => rfl
      simp only [htr, if_true]
  · have hempty : readme = "" := by
      apply String.ext
      unfold truthy at ht
      cases hdata : readme.data with
      | nil => rfl
      | cons c cs => rw [hdata] at ht; simp at ht
    subst hempty
    rfl

/-! ## Claims -/

/-- C1: `calculateRelevance content query` lies in `[0,1]`, equals the number
of white-space separated words of the lower-cased query that are substrings
of the lower-cased content divided by the number of those words (which is
never zero), and equals `1` exactly when every such word is a substring of
the lower-cased content. -/
theorem calculateRelevance_spec (content query : String) :
    0 ≤ calculateRelevance content query ∧
    calculateRelevance content query ≤ 1 ∧
    0 < (splitWhitespace (toLowerCase query)).length ∧
    calculateRelevance content query =
      (((splitWhitespace (toLowerCase query)).countP
          (fun w => decide (w.data <:+: (toLowerCase content).data)) : Nat) : ℚ) /
        ((splitWhitespace (toLowerCase query)).length : ℚ) ∧
    (calculateRelevance content query = 1 ↔
      ∀ w ∈ splitWhitespace (toLowerCase query),
        w.data <:+: (toLowerCase content).data) := by
  refine ⟨(calculateRelevance_bounds content query).1,
    (calculateRelevance_bounds content query).2,
    splitWhitespace_length_pos _, ?_, ?_⟩
  · rw [calculateRelevance_eq]
    congr 2
    apply List.countP_congr
    intro w _
    simp [includes_iff]
  · rw [calculateRelevance_eq_one_iff]
    simp only [includes_iff]

/-- C2: whenever `searchAndAnswer` succeeds, the returned `sources` list has
at most five entries and is sorted by non-increasing relevance: every source
is at least as relevant as every later one, in particular as the next one. -/
theorem searchAndAnswer_sources_sorted (fp : FileProcessor) (storage : Storage)
    (stringify : Analysis → String) (client : ChatClient) (userId : Nat)
    (query : String) (result : SearchResult)
    (h : searchAndAnswer fp storage stringify client userId query = .ok result) :
    result.sources.length ≤ 5 ∧
    result.sources.Pairwise (fun a b => b.relevance ≤ a.relevance) ∧
    ∀ i (hi : i + 1 < result.sources.length),
      (result.sources.get ⟨i + 1, hi⟩).relevance ≤
        (result.sources.get ⟨i, Nat.lt_of_succ_lt hi⟩).relevance := by
  obtain ⟨qe, notes, questions, repos, -, -, -, -, hs, -⟩ :=
    searchAndAnswer_ok fp storage stringify client userId query result h
  have hsorted : result.sources.Pairwise (fun a b => b.relevance ≤ a.relevance) := by
    rw [hs]; exact buildSources_sorted _ _ _ _ _
  refine ⟨by rw [hs]; exact buildSources_length _ _ _ _ _, hsorted, ?_⟩
  intro i hi
  exact List.pairwise_iff_get.mp hsorted ⟨i, Nat.lt_of_succ_lt hi⟩ ⟨i + 1, hi⟩
    (Nat.lt_succ_self i)

/-- C2 at a user with two notes stored weaker match first: the search
succeeds and returns them stronger match first. -/
theorem searchAndAnswer_sources_sorted_witness :
    searchAndAnswer demoFileProcessor twoNoteStorage demoStringify failingClient 7
      "dijkstra graph" = .ok twoNoteResult ∧
    twoNoteResult.sources.length ≤ 5 ∧
    twoNoteResult.sources.Pairwise (fun a b => b.relevance ≤ a.relevance) :=
  ⟨twoNote_search,
    (searchAndAnswer_sources_sorted demoFileProcessor twoNoteStorage demoStringify
      failingClient 7 "dijkstra graph" twoNoteResult twoNote_search).1,
    (searchAndAnswer_sources_sorted demoFileProcessor twoNoteStorage demoStringify
      failingClient 7 "dijkstra graph" twoNoteResult twoNote_search).2.1⟩

/-- C3: the three per-collection scans respect their caps (three notes, two
questions, three repositories) and each returns a sub-sequence of its input
list, in the input order. -/
theorem findRelevant_caps (fp : FileProcessor) (stringify : Analysis → String)
    (notes : List Note) (questions : List PlacementQuestion)
    (repos : List GithubRepo) (queryEmbedding : Option String) (query : String) :
    ((findRelevantNotes fp notes queryEmbedding query).length ≤ 3 ∧
      (findRelevantNotes fp notes queryEmbedding query).Sublist notes) ∧
    ((findRelevantQuestions fp questions queryEmbedding query).length ≤ 2 ∧
      (findRelevantQuestions fp questions queryEmbedding query).Sublist questions) ∧
    ((findRelevantRepos stringify repos queryEmbedding query).length ≤ 3 ∧
      (findRelevantRepos stringify repos queryEmbedding query).Sublist repos) := by
  refine ⟨⟨List.length_take_le _ _, ?_⟩, ⟨List.length_take_le _ _, ?_⟩, ?_⟩
  · exact (List.take_sublist _ _).trans (List.filter_sublist _)
  · exact (List.take_sublist _ _).trans (List.filter_sublist _)
  · unfold findRelevantRepos
    simp only
    split
    · exact ⟨List.length_take_le _ _, (List.take_sublist _ _).trans (List.filter_sublist _)⟩
    · exact ⟨List.length_take_le _ _, (List.take_sublist _ _).trans (List.filter_sublist _)⟩

/-- C4, as stated, fails: the fourth of four notes containing the query
`graph` is cut off by the cap of three. -/
theorem findRelevantNotes_membership_counterexample :
    flowsNote ∈ fourNotes ∧
    "graph".data <:+: flowsNote.content.data ∧
    flowsNote ∉ findRelevantNotes demoFileProcessor fourNotes none "graph" :=
  ⟨by decide, (includesList_iff _ _).mp (by decide), by decide⟩

/-- C4, amended: a note passes the filter of `findRelevantNotes`, whatever the
query embedding is, when the query is a verbatim substring of its content or
of its title and that content or title is ASCII text, and more generally when
the lower-cased query occurs in the lower-cased content or title; a passing
note is in the result whenever fewer than three passing notes precede it in
the list. -/
theorem findRelevantNotes_membership (fp : FileProcessor) (pre post : List Note)
    (note : Note) (queryEmbedding : Option String) (query : String)
    (hsub :
      (query.data <:+: note.content.data ∧ ∀ c ∈ note.content.data, c.toNat < 128) ∨
      (query.data <:+: note.title.data ∧ ∀ c ∈ note.title.data, c.toNat < 128) ∨
      (toLowerCase query).data <:+: (toLowerCase note.content).data ∨
      (toLowerCase query).data <:+: (toLowerCase note.title).data)
    (hpre : (pre.filter (noteMatches fp queryEmbedding query)).length < 3) :
    noteMatches fp queryEmbedding query note = true ∧
    note ∈ findRelevantNotes fp (pre ++ note :: post) queryEmbedding query := by
  have hm : noteMatches fp queryEmbedding query note = true := by
    unfold noteMatches
    simp only [Bool.or_eq_true, includes_iff]
    rcases hsub with ⟨h, hascii⟩ | ⟨h, hascii⟩ | h | h
    · exact Or.inl (Or.inl (toLowerCase_occurs _ _ hascii h))
    · exact Or.inl (Or.inr (toLowerCase_occurs _ _ hascii h))
    · exact Or.inl (Or.inl h)
    · exact Or.inl (Or.inr h)
  exact ⟨hm, mem_take_filter _ pre post note 3 hm hpre⟩

/-- C4 amended, at the third of the four notes on graphs, whose ASCII content
contains the query verbatim: two passing notes precede it, so it is returned. -/
theorem findRelevantNotes_membership_witness :
    noteMatches demoFileProcessor none "graph"
      { id := 3, title := "MST", content := "graph spanning trees", embedding := none } = true ∧
    ({ id := 3, title := "MST", content := "graph spanning trees", embedding := none } : Note) ∈
      findRelevantNotes demoFileProcessor
        ([{ id := 1, title := "BFS", content := "graph traversal by layers", embedding := none },
          { id := 2, title := "DFS", content := "graph traversal by depth", embedding := none }] ++
          { id := 3, title := "MST", content := "graph spanning trees", embedding := none } ::
          [flowsNote]) none "graph" :=
  findRelevantNotes_membership demoFileProcessor _ _ _ none "graph"
    (Or.inl ⟨(includesList_iff _ _).mp (by decide), by decide⟩) (by decide)

/-- C5: `inferArchitecture` is a total decision table over
backend := some key file name contains `server`, `app.js` or `main.py` and
frontend := the technologies contain `react` or `html`; each of the four
combinations yields its label and no other value is returned. -/
theorem inferArchitecture_table (keyFiles : List KeyFile) (technologies : List String) :
    ((∃ f ∈ keyFiles, "server".data <:+: f.name.data ∨ "app.js".data <:+: f.name.data ∨
          "main.py".data <:+: f.name.data) ∧
        ("react" ∈ technologies ∨ "html" ∈ technologies) →
      inferArchitecture keyFiles technologies = "Full-stack application") ∧
    ((∃ f ∈ keyFiles, "server".data <:+: f.name.data ∨ "app.js".data <:+: f.name.data ∨
          "main.py".data <:+: f.name.data) ∧
        ¬("react" ∈ technologies ∨ "html" ∈ technologies) →
      inferArchitecture keyFiles technologies = "Backend API service") ∧
    (¬(∃ f ∈ keyFiles, "server".data <:+: f.name.data ∨ "app.js".data <:+: f.name.data ∨
          "main.py".data <:+: f.name.data) ∧
        ("react" ∈ technologies ∨ "html" ∈ technologies) →
      inferArchitecture keyFiles technologies = "Frontend application") ∧
    (¬(∃ f ∈ keyFiles, "server".data <:+: f.name.data ∨ "app.js".data <:+: f.name.data ∨
          "main.py".data <:+: f.name.data) ∧
        ¬("react" ∈ technologies ∨ "html" ∈ technologies) →
      inferArchitecture keyFiles technologies = "Application project") ∧
    inferArchitecture keyFiles technologies ∈
      ["Full-stack application", "Backend API service", "Frontend application",
        "Application project"] := by
  have hb : (keyFiles.any fun f =>
      includes f.name "server" || includes f.name "app.js" || includes f.name "main.py") = true ↔
      ∃ f ∈ keyFiles, "server".data <:+: f.name.data ∨ "app.js".data <:+: f.name.data ∨
          "main.py".data <:+: f.name.data := by
    simp only [List.any_eq_true, Bool.or_eq_true, includes_iff, or_assoc]
  have hf : (technologies.contains "react" || technologies.contains "html") = true ↔
      ("react" ∈ technologies ∨ "html" ∈ technologies) := by
    simp
  rw [← hb, ← hf]
  unfold inferArchitecture
  simp only
  cases (keyFiles.any fun f =>
      includes f.name "server" || includes f.name "app.js" || includes f.name "main.py") <;>
    cases (technologies.contains "react" || technologies.contains "html") <;> simp

/-- C6: when the README text is empty and no key file was collected, the
analysis built by `analyzeRepository` has no technologies, the summary
`Project with 0 key files including ` and the architecture
`Application project`; with the root listing and the database write
resolving, that object is what `analyzeRepository` returns. -/
theorem analyzeRepository_bare (octokit : Octokit)
    (update : Nat → Analysis → Except String Unit) (userId repoId : Nat)
    (repoName : String) (contents : Contents)
    (hroot : octokit.getContent (repoOwner repoName) (repoPart repoName) "" = .ok contents)
    (hreadme : fetchReadme octokit (repoOwner repoName) (repoPart repoName) = "")
    (hfiles : collectKeyFiles octokit (repoOwner repoName) (repoPart repoName) contents = [])
    (hupd : update repoId (buildAnalysis "" []) = .ok ()) :
    extractTechnologies [] "" = [] ∧
    generateSummary "" [] = "Project with 0 key files including " ∧
    inferArchitecture [] (extractTechnologies [] "") = "Application project" ∧
    analyzeRepository (some octokit) update userId repoId repoName =
      .ok { summary := "Project with 0 key files including "
            technologies := []
            keyFiles := []
            architecture := "Application project" } := by
  refine ⟨by decide, by decide, by decide, ?_⟩
  rw [analyzeRepository_eq octokit update userId repoId repoName contents hroot
    (by rw [hreadme, hfiles]; exact hupd), hreadme, hfiles, buildAnalysis_bare]

/-- C6 at a repository whose root holds only a licence file and a source
directory and whose README fetch is rejected. -/
theorem analyzeRepository_bare_witness :
    analyzeRepository (some bareOctokit) demoUpdate 7 42 "alice/scratch" =
      .ok { summary := "Project with 0 key files including "
            technologies := []
            keyFiles := []
            architecture := "Application project" } :=
  (analyzeRepository_bare bareOctokit demoUpdate 7 42 "alice/scratch"
    (.listing [⟨"LICENSE", "file"⟩, ⟨"src", "dir"⟩]) rfl rfl (by decide) rfl).2.2.2

/-- C7: the Answer Composer never propagates a provider failure. Each of the
three methods returns a string on every input, and when the provider call
rejects, whatever the error, `generateAnswer` and `generateChatResponse`
return the fixed apology and `analyzeCode` returns its fixed failure text. -/
theorem answerComposer_failure (client : ChatClient) :
    (∀ query context e, client (answerRequest query context) = .error e →
      generateAnswer client query context =
        "I'm experiencing technical difficulties. Please try again later.") ∧
    (∀ messages context e, client (chatRequest messages context) = .error e →
      generateChatResponse client messages context =
        "I'm experiencing technical difficulties. Please try again later.") ∧
    (∀ code language e, client (analyzeRequest code language) = .error e →
      analyzeCode client code language = "Failed to analyze code.") := by
  refine ⟨?_, ?_, ?_⟩
  · intro query context e h
    simp only [generateAnswer, h]
  · intro messages context e h
    simp only [generateChatResponse, h]
  · intro code language e h
    simp only [analyzeCode, h]

/-- C7 at a provider that rejects every request. -/
theorem answerComposer_failure_witness :
    generateAnswer failingClient "what is a heap" "[NOTE] Heaps:\nbinary heap" =
      "I'm experiencing technical difficulties. Please try again later." ∧
    generateChatResponse failingClient [⟨"user", "hello"⟩] "" =
      "I'm experiencing technical difficulties. Please try again later." ∧
    analyzeCode failingClient "print(1)" "python" = "Failed to analyze code." :=
  ⟨(answerComposer_failure failingClient).1 _ _ "provider unavailable" rfl,
   (answerComposer_failure failingClient).2.1 _ _ "provider unavailable" rfl,
   (answerComposer_failure failingClient).2.2 _ _ "provider unavailable" rfl⟩

/-- C8: for a user whose stored content is exactly one note, and a query that
the note's content contains after lower-casing both, a successful
`searchAndAnswer` returns exactly one source: of type `note`, carrying the
note's title and relevance `1`; the context string handed to the Answer
Composer begins with `[NOTE] <title>:` and a line break. -/
theorem searchAndAnswer_single_note (fp : FileProcessor) (storage : Storage)
    (stringify : Analysis → String) (client : ChatClient) (userId : Nat)
    (query : String) (note : Note) (result : SearchResult)
    (hn : storage.getNotesByUser userId = .ok [note])
    (hq : storage.getPlacementQuestionsByUser userId = .ok [])
    (hr : storage.getGithubReposByUser userId = .ok [])
    (hc : (toLowerCase query).data <:+: (toLowerCase note.content).data)
    (h : searchAndAnswer fp storage stringify client userId query = .ok result) :
    result.sources =
      [{ type := "note"
         title := note.title
         content := substring0 note.content 500 ++
           (if note.content.data.length > 500 then "..." else "")
         relevance := 1 }] ∧
    result.answer = generateAnswer client query (buildContext result.sources) ∧
    ("[NOTE] " ++ note.title ++ ":\n").data <+: (buildContext result.sources).data := by
  obtain ⟨qe, notes, questions, repos, -, hn2, hq2, hr2, hs, ha⟩ :=
    searchAndAnswer_ok fp storage stringify client userId query result h
  rw [hn] at hn2
  rw [hq] at hq2
  rw [hr] at hr2
  cases hn2
  cases hq2
  cases hr2
  have hm : findRelevantNotes fp [note] qe query = [note] := by
    have : noteMatches fp qe query note = true := by
      unfold noteMatches
      simp only [Bool.or_eq_true, includes_iff]
      exact Or.inl (Or.inl hc)
    simp [findRelevantNotes, this]
  have hsrc : result.sources =
      [{ type := "note"
         title := note.title
         content := substring0 note.content 500 ++
           (if note.content.data.length > 500 then "..." else "")
         relevance := 1 }] := by
    rw [hs, hm, findRelevantRepos_nil]
    simp only [findRelevantQuestions, List.filter_nil, List.take_nil]
    rw [buildSources_single_note, calculateRelevance_of_includes _ _ hc]
  refine ⟨hsrc, ha, ?_⟩
  rw [hsrc]
  have hup : toUpperCase "note" = "NOTE" := by decide
  simp only [buildContext, List.map_cons, List.map_nil, join, hup, String.data_append,
    List.append_assoc]
  refine ⟨(substring0 note.content 500 ++
    (if note.content.data.length > 500 then "..." else "")).data, ?_⟩
  simp [List.append_assoc]

/-- C8 at the note `Graphs` containing `Dijkstra shortest path` and the query
`dijkstra`. -/
theorem searchAndAnswer_single_note_witness :
    searchAndAnswer demoFileProcessor graphsStorage demoStringify failingClient 7
      "dijkstra" = .ok graphsResult ∧
    graphsResult.sources =
      [{ type := "note", title := "Graphs", content := "Dijkstra shortest path",
         relevance := 1 }] ∧
    "[NOTE] Graphs:\n".data <+: (buildContext graphsResult.sources).data :=
  ⟨graphs_search,
   (searchAndAnswer_single_note demoFileProcessor graphsStorage demoStringify failingClient 7
      "dijkstra" graphsNote graphsResult rfl rfl rfl
      ((includesList_iff _ _).mp (by decide)) graphs_search).1,
   (searchAndAnswer_single_note demoFileProcessor graphsStorage demoStringify failingClient 7
      "dijkstra" graphsNote graphsResult rfl rfl rfl
      ((includesList_iff _ _).mp (by decide)) graphs_search).2.2⟩

/-- C9: a repository for which some white-space separated word of the
lower-cased query is longer than two characters and occurs in the lower-cased
repository name or description passes the filter of `findRelevantRepos`,
with or without an analysis, and is returned whenever fewer than three
passing repositories precede it. -/
theorem findRelevantRepos_partial_match (stringify : Analysis → String)
    (pre post : List GithubRepo) (repo : GithubRepo) (queryEmbedding : Option String)
    (query word : String)
    (hword : word ∈ splitWhitespace (toLowerCase query))
    (hlen : word.data.length > 2)
    (hsub : word.data <:+: (toLowerCase repo.repoName).data ∨
      word.data <:+: (toLowerCase (repo.description.getD "")).data)
    (hpre : (pre.filter (repoMatches stringify query)).length < 3) :
    repoMatches stringify query repo = true ∧
    repo ∈ findRelevantRepos stringify (pre ++ repo :: post) queryEmbedding query := by
  have hp : partialMatch (toLowerCase query) (toLowerCase repo.repoName)
      (toLowerCase (repo.description.getD "")) = true := by
    unfold partialMatch
    rw [List.any_eq_true]
    refine ⟨word, hword, ?_⟩
    simp only [Bool.and_eq_true, Bool.or_eq_true, decide_eq_true_eq, includes_iff]
    exact ⟨hlen, hsub⟩
  have hm : repoMatches stringify query repo = true := by
    unfold repoMatches
    simp only [hp, Bool.or_true, Bool.true_or]
  exact ⟨hm, findRelevantRepos_of_matches stringify pre post repo queryEmbedding query hm hpre⟩

/-- C9 at the query `what does my movies_website repo use` and the single
repository `movies_website`, which has no analysis. -/
theorem findRelevantRepos_partial_match_witness :
    repoMatches demoStringify "what does my movies_website repo use" moviesRepo = true ∧
    moviesRepo ∈ findRelevantRepos demoStringify ([] ++ moviesRepo :: []) none
      "what does my movies_website repo use" :=
  findRelevantRepos_partial_match demoStringify [] [] moviesRepo none
    "what does my movies_website repo use" "movies_website" (by decide) (by decide)
    (Or.inl ((includesList_iff _ _).mp (by decide))) (by decide)

/-- C10, as stated, fails: the root file `webapp.js` is selected as a key file
although its name is none of the six allow-listed names; the filter only asks
that the name contain one of them. -/
theorem analyzeRepository_keyFiles_counterexample :
    analyzeRepository (some webappOctokit) demoUpdate 7 42 "alice/site" =
      .ok webappAnalysis ∧
    webappAnalysis.keyFiles.map (·.name) = ["webapp.js"] ∧
    "webapp.js" ∉ allowedNames :=
  ⟨webapp_analysis, by decide, by decide⟩

/-- C10, amended: for every root listing, the key files of a successful
`analyzeRepository` number at most three; their names are, in the listing's
order, the names of entries of type `file` whose name contains one of the six
allow-listed names; and each stored content is the first 1000 characters of
the text fetched for that file, hence at most 1000 characters long and a
prefix of that text. -/
theorem analyzeRepository_keyFiles (octokit : Octokit)
    (update : Nat → Analysis → Except String Unit) (userId repoId : Nat)
    (repoName : String) (items : List DirEntry) (analysis : Analysis)
    (hroot : octokit.getContent (repoOwner repoName) (repoPart repoName) "" =
      .ok (.listing items))
    (h : analyzeRepository (some octokit) update userId repoId repoName = .ok analysis) :
    analysis.keyFiles.length ≤ 3 ∧
    (∃ selected : List DirEntry, selected.Sublist items ∧
      analysis.keyFiles.map (·.name) = selected.map (·.name) ∧
      ∀ item ∈ selected, item.type = "file" ∧
        ∃ allowed ∈ allowedNames, allowed.data <:+: item.name.data) ∧
    ∀ kf ∈ analysis.keyFiles,
      kf.content.data.length ≤ 1000 ∧
      ∃ text, octokit.getContent (repoOwner repoName) (repoPart repoName) kf.name =
          .ok (.file (some text)) ∧
        kf.content.data = text.data.take 1000 ∧
        kf.content.data <+: text.data := by
  obtain ⟨client, contents, hcl, hc, ha⟩ :=
    analyzeRepository_ok (some octokit) update userId repoId repoName analysis h
  cases hcl
  rw [hroot] at hc
  cases hc
  have hkeys : analysis.keyFiles = fetchKeyFiles octokit (repoOwner repoName)
      (repoPart repoName) ((items.filter isImportantFile).take 3) := by
    rw [ha]; rfl
  obtain ⟨⟨sel, hsub, hnames⟩, hkf⟩ := fetchKeyFiles_spec octokit (repoOwner repoName)
    (repoPart repoName) ((items.filter isImportantFile).take 3)
  rw [← hkeys] at hnames hkf
  refine ⟨?_, ⟨sel, ?_, hnames, ?_⟩, ?_⟩
  · have h1 : analysis.keyFiles.length = sel.length := by
      simpa using congrArg List.length hnames
    have h2 : sel.length ≤ ((items.filter isImportantFile).take 3).length := hsub.length_le
    have h3 : ((items.filter isImportantFile).take 3).length ≤ 3 := List.length_take_le _ _
    omega
  · exact hsub.trans ((List.take_sublist _ _).trans (List.filter_sublist _))
  · intro item hitem
    have hmem : item ∈ items.filter isImportantFile :=
      (List.take_sublist _ _).subset (hsub.subset hitem)
    exact (isImportantFile_iff item).mp (List.mem_filter.mp hmem).2
  · intro kf hmem
    obtain ⟨text, hget, hcontent⟩ := hkf kf hmem
    have hdata : kf.content.data = text.data.take 1000 := by rw [hcontent]; rfl
    refine ⟨?_, text, hget, hdata, ?_⟩
    · rw [hdata]; exact List.length_take_le _ _
    · rw [hdata]; exact List.take_prefix _ _

/-- C10 amended, at the repository whose root holds the single file
`webapp.js`. -/
theorem analyzeRepository_keyFiles_witness :
    webappOctokit.getContent (repoOwner "alice/site") (repoPart "alice/site") "" =
      .ok (.listing [⟨"webapp.js", "file"⟩]) ∧
    webappAnalysis.keyFiles.length ≤ 3 ∧
    ∀ kf ∈ webappAnalysis.keyFiles,
      kf.content.data.length ≤ 1000 ∧
      ∃ text, webappOctokit.getContent (repoOwner "alice/site") (repoPart "alice/site")
          kf.name = .ok (.file (some text)) ∧
        kf.content.data = text.data.take 1000 ∧
        kf.content.data <+: text.data :=
  ⟨rfl,
   (analyzeRepository_keyFiles webappOctokit demoUpdate 7 42 "alice/site"
      [⟨"webapp.js", "file"⟩] webappAnalysis rfl webapp_analysis).1,
   (analyzeRepository_keyFiles webappOctokit demoUpdate 7 42 "alice/site"
      [⟨"webapp.js", "file"⟩] webappAnalysis rfl webapp_analysis).2.2⟩

/-- C12: the project-query fallback of `findRelevantRepos` never returns a
repository. Whenever the filter matched no repository and the query is
project-related (with a non-empty list, so that the fallback branch is taken),
no repository in the list has an analysis and the fallback expression is the
empty list; hence `findRelevantRepos` always equals the first three elements
of the filtered list. -/
theorem findRelevantRepos_fallback_empty (stringify : Analysis → String)
    (repos : List GithubRepo) (queryEmbedding : Option String) (query : String) :
    ((repos.filter (repoMatches stringify query)).length = 0 →
      isProjectQuery (toLowerCase query) = true → repos.length > 0 →
        (∀ repo ∈ repos, repo.analysis = none) ∧
        (repos.filter fun repo => repo.analysis.isSome).take 3 = [] ∧
        findRelevantRepos stringify repos queryEmbedding query = []) ∧
    findRelevantRepos stringify repos queryEmbedding query =
      (repos.filter (repoMatches stringify query)).take 3 := by
  have key : (repos.filter (repoMatches stringify query)).length = 0 →
      isProjectQuery (toLowerCase query) = true →
      (∀ repo ∈ repos, repo.analysis = none) ∧
      (repos.filter fun repo => repo.analysis.isSome).take 3 = [] := by
    intro hlen hproject
    have hnone : ∀ repo ∈ repos, repo.analysis = none := by
      intro repo hmem
      apply analysis_none_of_not_matches stringify query repo hproject
      rw [List.length_eq_zero, List.filter_eq_nil_iff] at hlen
      simpa using hlen repo hmem
    refine ⟨hnone, ?_⟩
    have : (repos.filter fun repo => repo.analysis.isSome) = [] := by
      rw [List.filter_eq_nil_iff]
      intro repo hmem
      simp [hnone repo hmem]
    rw [this, List.take_nil]
  have heq : findRelevantRepos stringify repos queryEmbedding query =
      (repos.filter (repoMatches stringify query)).take 3 := by
    unfold findRelevantRepos
    simp only
    split
    · rename_i hcond
      simp only [Bool.and_eq_true, beq_iff_eq, decide_eq_true_eq] at hcond
      rw [(key hcond.1.1 hcond.1.2).2, List.length_eq_zero.mp hcond.1.1, List.take_nil]
    · rfl
  refine ⟨?_, heq⟩
  intro hlen hproject _
  refine ⟨(key hlen hproject).1, (key hlen hproject).2, ?_⟩
  rw [heq, List.length_eq_zero.mp hlen, List.take_nil]

/-- C12 at the query `project` and a single unanalysed repository whose name
and description do not mention it: the fallback branch is taken and returns
nothing. -/
theorem findRelevantRepos_fallback_empty_witness :
    (([unanalysedRepo].filter (repoMatches demoStringify "project")).length = 0 ∧
      isProjectQuery (toLowerCase "project") = true ∧ [unanalysedRepo].length > 0) ∧
    (∀ repo ∈ [unanalysedRepo], repo.analysis = none) ∧
    findRelevantRepos demoStringify [unanalysedRepo] none "project" = [] :=
  ⟨⟨by decide, by decide, by decide⟩,
   ((findRelevantRepos_fallback_empty demoStringify [unanalysedRepo] none "project").1
      (by decide) (by decide) (by decide)).1,
   ((findRelevantRepos_fallback_empty demoStringify [unanalysedRepo] none "project").1
      (by decide) (by decide) (by decide)).2.2⟩

/-- C11: `generateSummary` scans the README lines, the pieces between line
breaks. When a first line exists that is non-blank, does not start with `#`
and is longer than 20 characters, the result is that line cut to its first
200 characters, hence at most 200 characters long. When no line qualifies,
as for the empty README, the result is `Project with N key files including `
followed by the key file names joined by `, `, with `N` the number of key
files. -/
theorem generateSummary_spec (readme : String) (keyFiles : List KeyFile) :
    (join "\n" (splitOn (Char.ofNat 10) readme) = readme ∧
      ∀ line ∈ splitOn (Char.ofNat 10) readme, Char.ofNat 10 ∉ line.data) ∧
    (∀ pre line post, splitOn (Char.ofNat 10) readme = pre ++ line :: post →
      IsDescriptionLine line → (∀ l ∈ pre, ¬ IsDescriptionLine l) →
        generateSummary readme keyFiles = substring0 line 200 ∧
        (generateSummary readme keyFiles).data = line.data.take 200 ∧
        (generateSummary readme keyFiles).data.length ≤ 200) ∧
    ((∀ l ∈ splitOn (Char.ofNat 10) readme, ¬ IsDescriptionLine l) →
      generateSummary readme keyFiles =
        "Project with " ++ toString keyFiles.length ++ " key files including " ++
          join ", " (keyFiles.map (·.name))) ∧
    generateSummary "" keyFiles =
      "Project with " ++ toString keyFiles.length ++ " key files including " ++
        join ", " (keyFiles.map (·.name)) := by
  refine ⟨⟨splitOn_join _ readme, splitOn_no_sep _ readme⟩, ?_, ?_, rfl⟩
  · intro pre line post hsplit hline hpre
    have hfind : (splitOn (Char.ofNat 10) readme).find? isDescription = some line := by
      rw [List.find?_eq_some]
      refine ⟨(isDescription_iff line).mpr hline, pre, post, hsplit, ?_⟩
      intro a ha
      have : isDescription a = false := by
        rw [← Bool.not_eq_true]
        exact fun h => hpre a ha ((isDescription_iff a).mp h)
      simp [this]
    have hres : generateSummary readme keyFiles = substring0 line 200 := by
      rw [generateSummary_eq, hfind]
    refine ⟨hres, by rw [hres]; rfl, ?_⟩
    rw [hres]
    exact List.length_take_le _ _
  · intro hnone
    have hfind : (splitOn (Char.ofNat 10) readme).find? isDescription = none := by
      rw [List.find?_eq_none]
      intro l hl h
      exact hnone l hl ((isDescription_iff l).mp h)
    rw [generateSummary_eq, hfind]

/-- C11 at a README made of a heading, a blank line and a description, and at
the empty README with two key files. -/
theorem generateSummary_spec_witness :
    generateSummary demoReadme demoKeyFiles =
      "A study assistant for placement preparation." ∧
    generateSummary "" demoKeyFiles =
      "Project with 2 key files including package.json, app.js" :=
  ⟨((generateSummary_spec demoReadme demoKeyFiles).2.1
      ["# PrepStack", ""] "A study assistant for placement preparation."
      ["See the docs."] (by decide) ((isDescription_iff _).mp (by decide))
      (fun l hl h => absurd ((isDescription_iff l).mpr h)
        (by
          rcases List.mem_cons.mp hl with rfl | hl
          · decide
          · rcases List.mem_cons.mp hl with rfl | hl
            · decide
            · exact absurd hl (List.not_mem_nil _)))).1.trans (by decide),
   ((generateSummary_spec "" demoKeyFiles).2.2.1
      (fun l hl h => absurd ((isDescription_iff l).mpr h)
        (by
          rcases List.mem_cons.mp hl with rfl | hl
          · decide
          · exact absurd hl (List.not_mem_nil _)))).trans (by decide)⟩

end PrepStack
